import Mathlib

/-
  Shallow embedding of src/ODEs/ODE.py.

  The module defines three fixed-step scalar ODE integrators, Euler, RK2 and
  RK4.  Each Python function has the shape

      h = t[1] - t[0]
      x = np.zeros(t.size)
      x[0] = x0
      for i in range(t.size - 1):
          x[i+1] = <step body using x[i], t[i], h>
      return x

  Real arithmetic is modelled with the rationals, so that the exact algebraic
  identities claimed by the spec can be both proved and evaluated on concrete
  inputs.  The indexing expression t[1] (and t[0]) raises IndexError in Python
  when the grid is too short; the embedding models each integrator as an
  Option-valued function where none represents that exception.  The output
  array x, filled in increasing index order, is modelled by the recursion
  iterSteps: entry 0 is x0 and entry i+1 is the loop body applied to entry i
  and t[i].
-/

namespace ODE

/-- Entry i of the output array x: x[0] = x0 and x[i+1] = step x[i] t[i],
mirroring the single pass `for i in range(t.size-1): x[i+1] = ...` of each
integrator in ODE.py.  Grid entries are read with getD; every read performed
by an integrator on a grid of length N is at an index i < N - 1, hence in
bounds, so the default is never consulted. -/
def iterSteps (step : ℚ → ℚ → ℚ) (t : List ℚ) (x0 : ℚ) : Nat → ℚ
  | 0 => x0
  | i + 1 => step (iterSteps step t x0 i) (t.getD i 0)

/-- Loop body of Euler in ODE.py: x[i+1] = x[i] + h * f(x[i], t[i]). -/
def eulerStep (f : ℚ → ℚ → ℚ) (h : ℚ) (x ti : ℚ) : ℚ :=
  x + h * f x ti

/-- Loop body of RK2 in ODE.py:
k1 = h * f(x[i], t[i]); k2 = h * f(x[i] + k1/2, t[i] + h/2);
x[i+1] = x[i] + k2. -/
def rk2Step (f : ℚ → ℚ → ℚ) (h : ℚ) (x ti : ℚ) : ℚ :=
  let k1 := h * f x ti
  let k2 := h * f (x + k1 / 2) (ti + h / 2)
  x + k2

/-- Loop body of RK4 in ODE.py:
k1 = h * f(x[i], t[i]); k2 = h * f(x[i] + k1/2, t[i] + h/2);
k3 = h * f(x[i] + k2/2, t[i] + h/2); k4 = h * f(x[i] + k3, t[i] + h);
x[i+1] = x[i] + (1/6) * (k1 + 2*k2 + 2*k3 + k4). -/
def rk4Step (f : ℚ → ℚ → ℚ) (h : ℚ) (x ti : ℚ) : ℚ :=
  let k1 := h * f x ti
  let k2 := h * f (x + k1 / 2) (ti + h / 2)
  let k3 := h * f (x + k2 / 2) (ti + h / 2)
  let k4 := h * f (x + k3) (ti + h)
  x + (1 / 6) * (k1 + 2 * k2 + 2 * k3 + k4)

/-- Euler(f, t, x0) from ODE.py.  First h = t[1] - t[0] is computed (none
models the IndexError raised when the grid has fewer than two points), then
the output array of size t.size is produced by the Euler loop body. -/
def Euler (f : ℚ → ℚ → ℚ) (t : List ℚ) (x0 : ℚ) : Option (List ℚ) := do
  let t1 ← t[1]?
  let t0 ← t[0]?
  let h := t1 - t0
  pure ((List.range t.length).map (iterSteps (eulerStep f h) t x0))

/-- RK2(f, t, x0) from ODE.py, same shape as Euler with the RK2 loop body. -/
def RK2 (f : ℚ → ℚ → ℚ) (t : List ℚ) (x0 : ℚ) : Option (List ℚ) := do
  let t1 ← t[1]?
  let t0 ← t[0]?
  let h := t1 - t0
  pure ((List.range t.length).map (iterSteps (rk2Step f h) t x0))

/-- RK4(f, t, x0) from ODE.py, same shape as Euler with the RK4 loop body. -/
def RK4 (f : ℚ → ℚ → ℚ) (t : List ℚ) (x0 : ℚ) : Option (List ℚ) := do
  let t1 ← t[1]?
  let t0 ← t[0]?
  let h := t1 - t0
  pure ((List.range t.length).map (iterSteps (rk4Step f h) t x0))

section BasicLemmas

/-- On a grid with at least two points, Euler returns the mapped trajectory. -/
lemma Euler_cons (f : ℚ → ℚ → ℚ) (a b : ℚ) (r : List ℚ) (x0 : ℚ) :
    Euler f (a :: b :: r) x0 =
      some ((List.range (r.length + 2)).map
        (iterSteps (eulerStep f (b - a)) (a :: b :: r) x0)) := by
  simp [Euler]

/-- On a grid with at least two points, RK2 returns the mapped trajectory. -/
lemma RK2_cons (f : ℚ → ℚ → ℚ) (a b : ℚ) (r : List ℚ) (x0 : ℚ) :
    RK2 f (a :: b :: r) x0 =
      some ((List.range (r.length + 2)).map
        (iterSteps (rk2Step f (b - a)) (a :: b :: r) x0)) := by
  simp [RK2]

/-- On a grid with at least two points, RK4 returns the mapped trajectory. -/
lemma RK4_cons (f : ℚ → ℚ → ℚ) (a b : ℚ) (r : List ℚ) (x0 : ℚ) :
    RK4 f (a :: b :: r) x0 =
      some ((List.range (r.length + 2)).map
        (iterSteps (rk4Step f (b - a)) (a :: b :: r) x0)) := by
  simp [RK4]

/-- A list of length at least two is a double cons. -/
lemma exists_cons_cons {t : List ℚ} (h2 : 2 ≤ t.length) :
    ∃ a b r, t = a :: b :: r := by
  match t with
  | [] => simp at h2
  | [a] => simp at h2
  | a :: b :: r => exact ⟨a, b, r, rfl⟩

/-- Reading entry i of the mapped range list evaluates the generator at i. -/
lemma getD_range_map (g : Nat → ℚ) {n i : Nat} (hi : i < n) :
    (((List.range n).map g).getD i 0) = g i := by
  rw [List.getD_eq_getElem?_getD, List.getElem?_map, List.getElem?_range hi]
  rfl

/-- On grids of length zero or one, the lookup of t[1] fails, so Euler raises
rather than returning a trajectory. -/
lemma Euler_short (f : ℚ → ℚ → ℚ) (t : List ℚ) (x0 : ℚ) (h : t.length < 2) :
    Euler f t x0 = none := by
  match t, h with
  | [], _ => rfl
  | [a], _ => rfl

/-- On grids of length zero or one, the lookup of t[1] fails, so RK2 raises
rather than returning a trajectory. -/
lemma RK2_short (f : ℚ → ℚ → ℚ) (t : List ℚ) (x0 : ℚ) (h : t.length < 2) :
    RK2 f t x0 = none := by
  match t, h with
  | [], _ => rfl
  | [a], _ => rfl

/-- On grids of length zero or one, the lookup of t[1] fails, so RK4 raises
rather than returning a trajectory. -/
lemma RK4_short (f : ℚ → ℚ → ℚ) (t : List ℚ) (x0 : ℚ) (h : t.length < 2) :
    RK4 f t x0 = none := by
  match t, h with
  | [], _ => rfl
  | [a], _ => rfl

/-- When the loop body fixes every state, the whole trajectory is constant. -/
lemma iterSteps_of_fixed {step : ℚ → ℚ → ℚ} (hs : ∀ x ti, step x ti = x)
    (t : List ℚ) (x0 : ℚ) (i : Nat) : iterSteps step t x0 i = x0 := by
  induction i with
  | zero => rfl
  | succ i ih => rw [iterSteps, hs, ih]

/-- Trajectory entry n only reads grid entries at indices below n: two grids
agreeing there produce the same entry. -/
lemma iterSteps_congr (step : ℚ → ℚ → ℚ) {u v : List ℚ} (x0 : ℚ) (n : Nat)
    (hagree : ∀ j, j < n → u.getD j 0 = v.getD j 0) :
    iterSteps step u x0 n = iterSteps step v x0 n := by
  induction n with
  | zero => rfl
  | succ n ih =>
      rw [iterSteps, iterSteps, hagree n n.lt_succ_self,
        ih fun j hj => hagree j (hj.trans n.lt_succ_self)]

/-- With a constant derivative c, one Euler step adds h times c. -/
lemma iterSteps_euler_const (c h : ℚ) (t : List ℚ) (x0 : ℚ) (i : Nat) :
    iterSteps (eulerStep (fun _ _ => c) h) t x0 i = x0 + i * h * c := by
  induction i with
  | zero => simp [iterSteps]
  | succ i ih =>
      rw [iterSteps, eulerStep, ih]
      push_cast
      ring

/-- With a constant derivative c, one RK2 step adds h times c. -/
lemma iterSteps_rk2_const (c h : ℚ) (t : List ℚ) (x0 : ℚ) (i : Nat) :
    iterSteps (rk2Step (fun _ _ => c) h) t x0 i = x0 + i * h * c := by
  induction i with
  | zero => simp [iterSteps]
  | succ i ih =>
      rw [iterSteps, rk2Step, ih]
      push_cast
      ring

/-- With a constant derivative c, one RK4 step adds h times c. -/
lemma iterSteps_rk4_const (c h : ℚ) (t : List ℚ) (x0 : ℚ) (i : Nat) :
    iterSteps (rk4Step (fun _ _ => c) h) t x0 i = x0 + i * h * c := by
  induction i with
  | zero => simp [iterSteps]
  | succ i ih =>
      rw [iterSteps, rk4Step, ih]
      push_cast
      ring

end BasicLemmas

/-- C1 counterexample: the claim says a grid of length 1 yields [x0] and a
grid of length 0 yields an empty result, with no failure.  In fact every one
of the three integrators evaluates t[1] - t[0] before its loop, so on the
concrete degenerate grids [3] and [] each call fails (IndexError, modelled as
none) instead of returning a trajectory. -/
theorem degenerate_grid_graceful_cex :
    (Euler (fun _ _ => (1 : ℚ)) [3] 7 = none ∧ Euler (fun _ _ => (1 : ℚ)) [] 7 = none) ∧
      (RK2 (fun _ _ => (1 : ℚ)) [3] 7 = none ∧ RK2 (fun _ _ => (1 : ℚ)) [] 7 = none) ∧
      (RK4 (fun _ _ => (1 : ℚ)) [3] 7 = none ∧ RK4 (fun _ _ => (1 : ℚ)) [] 7 = none) :=
  ⟨⟨rfl, rfl⟩, ⟨rfl, rfl⟩, ⟨rfl, rfl⟩⟩

/-- C1 amended: a degenerate time grid (length 0 or 1) makes each of the three
integrators fail while computing h = t[1] - t[0]; no trajectory is returned in
any degenerate case. -/
theorem degenerate_grid_raises (f : ℚ → ℚ → ℚ) (t : List ℚ) (x0 : ℚ)
    (h : t.length < 2) :
    Euler f t x0 = none ∧ RK2 f t x0 = none ∧ RK4 f t x0 = none :=
  ⟨Euler_short f t x0 h, RK2_short f t x0 h, RK4_short f t x0 h⟩

/-- Witness for C1 amended at the length-1 grid [0]. -/
theorem degenerate_grid_raises_witness :
    ([(0 : ℚ)] : List ℚ).length < 2 ∧
      (Euler (fun y s => y + s) [(0 : ℚ)] 1 = none ∧
        RK2 (fun y s => y + s) [(0 : ℚ)] 1 = none ∧
        RK4 (fun y s => y + s) [(0 : ℚ)] 1 = none) :=
  ⟨by decide, degenerate_grid_raises (fun y s => y + s) [(0 : ℚ)] 1 (by decide)⟩

/-- C2: for every grid t of length N at least 2, every x0 and every f,
Euler(f, t, x0) returns a sequence x of length N with x[0] = x0 and
x[i+1] = x[i] + h * f(x[i], t[i]) for every i from 0 to N - 2, where
h = t[1] - t[0] is used for every step. -/
theorem Euler_recurrence (f : ℚ → ℚ → ℚ) (t : List ℚ) (x0 : ℚ)
    (h2 : 2 ≤ t.length) :
    ∃ x, Euler f t x0 = some x ∧ x.length = t.length ∧ x.getD 0 0 = x0 ∧
      ∀ i, i + 1 < t.length →
        x.getD (i + 1) 0 =
          x.getD i 0 + (t.getD 1 0 - t.getD 0 0) * f (x.getD i 0) (t.getD i 0) := by
  obtain ⟨a, b, r, rfl⟩ := exists_cons_cons h2
  refine ⟨_, Euler_cons f a b r x0, by simp, ?_, ?_⟩
  · rw [getD_range_map _ (by omega)]
    rfl
  · intro i hi
    have hi2 : i + 1 < r.length + 2 := by simpa using hi
    rw [getD_range_map _ hi2, getD_range_map _ (by omega)]
    simp [iterSteps, eulerStep]

/-- Witness for C2 at f(y, s) = y + s, t = [0, 1, 2], x0 = 1. -/
theorem Euler_recurrence_witness :
    2 ≤ ([0, 1, 2] : List ℚ).length ∧
      ∃ x, Euler (fun y s => y + s) [0, 1, 2] 1 = some x ∧
        x.length = ([0, 1, 2] : List ℚ).length ∧ x.getD 0 0 = 1 ∧
        ∀ i, i + 1 < ([0, 1, 2] : List ℚ).length →
          x.getD (i + 1) 0 =
            x.getD i 0 + (([0, 1, 2] : List ℚ).getD 1 0 - ([0, 1, 2] : List ℚ).getD 0 0) *
              (fun y s => y + s) (x.getD i 0) (([0, 1, 2] : List ℚ).getD i 0) :=
  ⟨by decide, Euler_recurrence (fun y s => y + s) [0, 1, 2] 1 (by decide)⟩

/-- C3: for every grid t of length N at least 2, every x0 and every f,
RK2(f, t, x0) returns a sequence x of length N with x[0] = x0 and, for every
i from 0 to N - 2, x[i+1] = x[i] + k2 where k1 = h * f(x[i], t[i]) and
k2 = h * f(x[i] + k1/2, t[i] + h/2), with h = t[1] - t[0]. -/
theorem RK2_recurrence (f : ℚ → ℚ → ℚ) (t : List ℚ) (x0 : ℚ)
    (h2 : 2 ≤ t.length) :
    ∃ x, RK2 f t x0 = some x ∧ x.length = t.length ∧ x.getD 0 0 = x0 ∧
      ∀ i, i + 1 < t.length → ∃ k1 k2,
        k1 = (t.getD 1 0 - t.getD 0 0) * f (x.getD i 0) (t.getD i 0) ∧
        k2 = (t.getD 1 0 - t.getD 0 0) *
          f (x.getD i 0 + k1 / 2) (t.getD i 0 + (t.getD 1 0 - t.getD 0 0) / 2) ∧
        x.getD (i + 1) 0 = x.getD i 0 + k2 := by
  obtain ⟨a, b, r, rfl⟩ := exists_cons_cons h2
  refine ⟨_, RK2_cons f a b r x0, by simp, ?_, ?_⟩
  · rw [getD_range_map _ (by omega)]
    rfl
  · intro i hi
    have hi2 : i + 1 < r.length + 2 := by simpa using hi
    refine ⟨_, _, rfl, rfl, ?_⟩
    rw [getD_range_map _ hi2, getD_range_map _ (by omega)]
    simp [iterSteps, rk2Step]

/-- Witness for C3 at f(y, s) = y + s, t = [0, 1, 2], x0 = 1. -/
theorem RK2_recurrence_witness :
    2 ≤ ([0, 1, 2] : List ℚ).length ∧
      ∃ x, RK2 (fun y s => y + s) [0, 1, 2] 1 = some x ∧
        x.length = ([0, 1, 2] : List ℚ).length ∧ x.getD 0 0 = 1 ∧
        ∀ i, i + 1 < ([0, 1, 2] : List ℚ).length → ∃ k1 k2,
          k1 = (([0, 1, 2] : List ℚ).getD 1 0 - ([0, 1, 2] : List ℚ).getD 0 0) *
            (fun y s => y + s) (x.getD i 0) (([0, 1, 2] : List ℚ).getD i 0) ∧
          k2 = (([0, 1, 2] : List ℚ).getD 1 0 - ([0, 1, 2] : List ℚ).getD 0 0) *
            (fun y s => y + s) (x.getD i 0 + k1 / 2)
              (([0, 1, 2] : List ℚ).getD i 0 +
                (([0, 1, 2] : List ℚ).getD 1 0 - ([0, 1, 2] : List ℚ).getD 0 0) / 2) ∧
          x.getD (i + 1) 0 = x.getD i 0 + k2 :=
  ⟨by decide, RK2_recurrence (fun y s => y + s) [0, 1, 2] 1 (by decide)⟩

/-- C4: for every grid t of length N at least 2, every x0 and every f,
RK4(f, t, x0) returns a sequence x of length N with x[0] = x0 and, for every
i from 0 to N - 2, x[i+1] = x[i] + (1/6) * (k1 + 2*k2 + 2*k3 + k4) where
k1 = h * f(x[i], t[i]), k2 = h * f(x[i] + k1/2, t[i] + h/2),
k3 = h * f(x[i] + k2/2, t[i] + h/2), k4 = h * f(x[i] + k3, t[i] + h),
with h = t[1] - t[0]. -/
theorem RK4_recurrence (f : ℚ → ℚ → ℚ) (t : List ℚ) (x0 : ℚ)
    (h2 : 2 ≤ t.length) :
    ∃ x, RK4 f t x0 = some x ∧ x.length = t.length ∧ x.getD 0 0 = x0 ∧
      ∀ i, i + 1 < t.length → ∃ k1 k2 k3 k4,
        k1 = (t.getD 1 0 - t.getD 0 0) * f (x.getD i 0) (t.getD i 0) ∧
        k2 = (t.getD 1 0 - t.getD 0 0) *
          f (x.getD i 0 + k1 / 2) (t.getD i 0 + (t.getD 1 0 - t.getD 0 0) / 2) ∧
        k3 = (t.getD 1 0 - t.getD 0 0) *
          f (x.getD i 0 + k2 / 2) (t.getD i 0 + (t.getD 1 0 - t.getD 0 0) / 2) ∧
        k4 = (t.getD 1 0 - t.getD 0 0) *
          f (x.getD i 0 + k3) (t.getD i 0 + (t.getD 1 0 - t.getD 0 0)) ∧
        x.getD (i + 1) 0 =
          x.getD i 0 + (1 / 6) * (k1 + 2 * k2 + 2 * k3 + k4) := by
  obtain ⟨a, b, r, rfl⟩ := exists_cons_cons h2
  refine ⟨_, RK4_cons f a b r x0, by simp, ?_, ?_⟩
  · rw [getD_range_map _ (by omega)]
    rfl
  · intro i hi
    have hi2 : i + 1 < r.length + 2 := by simpa using hi
    refine ⟨_, _, _, _, rfl, rfl, rfl, rfl, ?_⟩
    rw [getD_range_map _ hi2, getD_range_map _ (by omega)]
    simp [iterSteps, rk4Step]

/-- Witness for C4 at f(y, s) = y + s, t = [0, 1, 2], x0 = 1. -/
theorem RK4_recurrence_witness :
    2 ≤ ([0, 1, 2] : List ℚ).length ∧
      ∃ x, RK4 (fun y s => y + s) [0, 1, 2] 1 = some x ∧
        x.length = ([0, 1, 2] : List ℚ).length ∧ x.getD 0 0 = 1 ∧
        ∀ i, i + 1 < ([0, 1, 2] : List ℚ).length → ∃ k1 k2 k3 k4,
          k1 = (([0, 1, 2] : List ℚ).getD 1 0 - ([0, 1, 2] : List ℚ).getD 0 0) *
            (fun y s => y + s) (x.getD i 0) (([0, 1, 2] : List ℚ).getD i 0) ∧
          k2 = (([0, 1, 2] : List ℚ).getD 1 0 - ([0, 1, 2] : List ℚ).getD 0 0) *
            (fun y s => y + s) (x.getD i 0 + k1 / 2)
              (([0, 1, 2] : List ℚ).getD i 0 +
                (([0, 1, 2] : List ℚ).getD 1 0 - ([0, 1, 2] : List ℚ).getD 0 0) / 2) ∧
          k3 = (([0, 1, 2] : List ℚ).getD 1 0 - ([0, 1, 2] : List ℚ).getD 0 0) *
            (fun y s => y + s) (x.getD i 0 + k2 / 2)
              (([0, 1, 2] : List ℚ).getD i 0 +
                (([0, 1, 2] : List ℚ).getD 1 0 - ([0, 1, 2] : List ℚ).getD 0 0) / 2) ∧
          k4 = (([0, 1, 2] : List ℚ).getD 1 0 - ([0, 1, 2] : List ℚ).getD 0 0) *
            (fun y s => y + s) (x.getD i 0 + k3)
              (([0, 1, 2] : List ℚ).getD i 0 +
                (([0, 1, 2] : List ℚ).getD 1 0 - ([0, 1, 2] : List ℚ).getD 0 0)) ∧
          x.getD (i + 1) 0 =
            x.getD i 0 + (1 / 6) * (k1 + 2 * k2 + 2 * k3 + k4) :=
  ⟨by decide, RK4_recurrence (fun y s => y + s) [0, 1, 2] 1 (by decide)⟩

/-- C5 counterexample: the grid [0] is non-empty and satisfies the documented
precondition N at least 1, yet each integrator fails on it (t[1] lookup), so
no returned sequence exists whose first entry could equal x0 = 5. -/
theorem first_entry_cex :
    Euler (fun _ _ => (0 : ℚ)) [0] 5 = none ∧ RK2 (fun _ _ => (0 : ℚ)) [0] 5 = none ∧
      RK4 (fun _ _ => (0 : ℚ)) [0] 5 = none :=
  ⟨rfl, rfl, rfl⟩

/-- C5 amended: for all three integrators, on every time grid with at least
two points (the grids on which a sequence is returned at all), the first entry
of the returned sequence equals x0 exactly. -/
theorem first_entry_eq_x0 (f : ℚ → ℚ → ℚ) (t : List ℚ) (x0 : ℚ)
    (h2 : 2 ≤ t.length) :
    ∃ xe x2 x4, Euler f t x0 = some xe ∧ RK2 f t x0 = some x2 ∧
      RK4 f t x0 = some x4 ∧
      xe.getD 0 0 = x0 ∧ x2.getD 0 0 = x0 ∧ x4.getD 0 0 = x0 := by
  obtain ⟨a, b, r, rfl⟩ := exists_cons_cons h2
  refine ⟨_, _, _, Euler_cons f a b r x0, RK2_cons f a b r x0, RK4_cons f a b r x0,
    ?_, ?_, ?_⟩ <;>
  · rw [getD_range_map _ (by omega)]
    rfl

/-- Witness for C5 amended at f(y, s) = y * s, t = [0, 2], x0 = 3. -/
theorem first_entry_eq_x0_witness :
    2 ≤ ([0, 2] : List ℚ).length ∧
      ∃ xe x2 x4, Euler (fun y s => y * s) [0, 2] 3 = some xe ∧
        RK2 (fun y s => y * s) [0, 2] 3 = some x2 ∧
        RK4 (fun y s => y * s) [0, 2] 3 = some x4 ∧
        xe.getD 0 0 = 3 ∧ x2.getD 0 0 = 3 ∧ x4.getD 0 0 = 3 :=
  ⟨by decide, first_entry_eq_x0 (fun y s => y * s) [0, 2] 3 (by decide)⟩

/-- C6 counterexample: on the empty grid each integrator fails (t[1] lookup)
instead of returning a sequence of length 0, so the returned sequence does not
have the same length as t for every input grid. -/
theorem length_preserved_cex :
    Euler (fun _ _ => (0 : ℚ)) [] 5 = none ∧ RK2 (fun _ _ => (0 : ℚ)) [] 5 = none ∧
      RK4 (fun _ _ => (0 : ℚ)) [] 5 = none :=
  ⟨rfl, rfl, rfl⟩

/-- C6 amended: for all three integrators, on every time grid with at least
two points (the grids on which a sequence is returned at all), the returned
sequence has the same length as the grid. -/
theorem length_preserved (f : ℚ → ℚ → ℚ) (t : List ℚ) (x0 : ℚ)
    (h2 : 2 ≤ t.length) :
    ∃ xe x2 x4, Euler f t x0 = some xe ∧ RK2 f t x0 = some x2 ∧
      RK4 f t x0 = some x4 ∧
      xe.length = t.length ∧ x2.length = t.length ∧ x4.length = t.length := by
  obtain ⟨a, b, r, rfl⟩ := exists_cons_cons h2
  exact ⟨_, _, _, Euler_cons f a b r x0, RK2_cons f a b r x0, RK4_cons f a b r x0,
    by simp, by simp, by simp⟩

/-- Witness for C6 amended at f(y, s) = y * s, t = [0, 2, 4], x0 = 3. -/
theorem length_preserved_witness :
    2 ≤ ([0, 2, 4] : List ℚ).length ∧
      ∃ xe x2 x4, Euler (fun y s => y * s) [0, 2, 4] 3 = some xe ∧
        RK2 (fun y s => y * s) [0, 2, 4] 3 = some x2 ∧
        RK4 (fun y s => y * s) [0, 2, 4] 3 = some x4 ∧
        xe.length = ([0, 2, 4] : List ℚ).length ∧
        x2.length = ([0, 2, 4] : List ℚ).length ∧
        x4.length = ([0, 2, 4] : List ℚ).length :=
  ⟨by decide, length_preserved (fun y s => y * s) [0, 2, 4] 3 (by decide)⟩

/-- C7: for a constant derivative f(x, t) = c, on every grid of length at
least 2 with h = t[1] - t[0], all three integrators return the same linear
sequence whose entry i is x0 + i * h * c. -/
theorem const_rhs_linear (c : ℚ) (t : List ℚ) (x0 : ℚ) (h2 : 2 ≤ t.length) :
    Euler (fun _ _ => c) t x0 =
        some ((List.range t.length).map fun i : ℕ => x0 + (i : ℚ) * (t.getD 1 0 - t.getD 0 0) * c) ∧
      RK2 (fun _ _ => c) t x0 =
        some ((List.range t.length).map fun i : ℕ => x0 + (i : ℚ) * (t.getD 1 0 - t.getD 0 0) * c) ∧
      RK4 (fun _ _ => c) t x0 =
        some ((List.range t.length).map fun i : ℕ => x0 + (i : ℚ) * (t.getD 1 0 - t.getD 0 0) * c) := by
  obtain ⟨a, b, r, rfl⟩ := exists_cons_cons h2
  refine ⟨?_, ?_, ?_⟩
  · rw [Euler_cons, funext fun i => iterSteps_euler_const c (b - a) (a :: b :: r) x0 i]
    simp only [List.getD_cons_succ, List.getD_cons_zero, List.length_cons]
  · rw [RK2_cons, funext fun i => iterSteps_rk2_const c (b - a) (a :: b :: r) x0 i]
    simp only [List.getD_cons_succ, List.getD_cons_zero, List.length_cons]
  · rw [RK4_cons, funext fun i => iterSteps_rk4_const c (b - a) (a :: b :: r) x0 i]
    simp only [List.getD_cons_succ, List.getD_cons_zero, List.length_cons]

/-- Witness for C7 at the spec scenario c = 1, t = [0, 1, 2, 3], x0 = 0:
all three integrators return [0, 1, 2, 3] exactly. -/
theorem const_rhs_linear_witness :
    2 ≤ ([0, 1, 2, 3] : List ℚ).length ∧
      Euler (fun _ _ => (1 : ℚ)) [0, 1, 2, 3] 0 = some [0, 1, 2, 3] ∧
      RK2 (fun _ _ => (1 : ℚ)) [0, 1, 2, 3] 0 = some [0, 1, 2, 3] ∧
      RK4 (fun _ _ => (1 : ℚ)) [0, 1, 2, 3] 0 = some [0, 1, 2, 3] := by
  have h := const_rhs_linear 1 [0, 1, 2, 3] 0 (by decide)
  refine ⟨by decide, h.1.trans ?_, h.2.1.trans ?_, h.2.2.trans ?_⟩ <;>
    norm_num [List.range_succ]

/-- C8: for the zero derivative f(x, t) = 0, on every grid of length at least
2 every entry of each returned sequence equals x0. -/
theorem zero_rhs_const (t : List ℚ) (x0 : ℚ) (h2 : 2 ≤ t.length) :
    Euler (fun _ _ => 0) t x0 = some (List.replicate t.length x0) ∧
      RK2 (fun _ _ => 0) t x0 = some (List.replicate t.length x0) ∧
      RK4 (fun _ _ => 0) t x0 = some (List.replicate t.length x0) := by
  obtain ⟨a, b, r, rfl⟩ := exists_cons_cons h2
  refine ⟨?_, ?_, ?_⟩
  · rw [Euler_cons, funext fun i => @iterSteps_of_fixed (eulerStep (fun _ _ => 0) (b - a))
      (fun x ti => by simp [eulerStep]) (a :: b :: r) x0 i]
    simp
  · rw [RK2_cons, funext fun i => @iterSteps_of_fixed (rk2Step (fun _ _ => 0) (b - a))
      (fun x ti => by simp [rk2Step]) (a :: b :: r) x0 i]
    simp
  · rw [RK4_cons, funext fun i => @iterSteps_of_fixed (rk4Step (fun _ _ => 0) (b - a))
      (fun x ti => by simp [rk4Step]) (a :: b :: r) x0 i]
    simp

/-- Witness for C8 at t = [0, 4, 8], x0 = 7. -/
theorem zero_rhs_const_witness :
    2 ≤ ([0, 4, 8] : List ℚ).length ∧
      (Euler (fun _ _ => 0) [0, 4, 8] 7 = some (List.replicate ([0, 4, 8] : List ℚ).length 7) ∧
        RK2 (fun _ _ => 0) [0, 4, 8] 7 = some (List.replicate ([0, 4, 8] : List ℚ).length 7) ∧
        RK4 (fun _ _ => 0) [0, 4, 8] 7 = some (List.replicate ([0, 4, 8] : List ℚ).length 7)) :=
  ⟨by decide, zero_rhs_const [0, 4, 8] 7 (by decide)⟩

/-- C9: no integrator divides by h, so when t[1] = t[0] (h = 0) each of the
three integrators returns, with no error, the constant sequence x0 at every
entry, for every f and every x0. -/
theorem zero_step_silent_const (f : ℚ → ℚ → ℚ) (t : List ℚ) (x0 : ℚ)
    (h2 : 2 ≤ t.length) (hh : t.getD 1 0 = t.getD 0 0) :
    Euler f t x0 = some (List.replicate t.length x0) ∧
      RK2 f t x0 = some (List.replicate t.length x0) ∧
      RK4 f t x0 = some (List.replicate t.length x0) := by
  obtain ⟨a, b, r, rfl⟩ := exists_cons_cons h2
  have hb : b = a := by simpa using hh
  subst hb
  refine ⟨?_, ?_, ?_⟩
  · rw [Euler_cons, funext fun i => @iterSteps_of_fixed (eulerStep f (b - b))
      (fun x ti => by simp [eulerStep]) (b :: b :: r) x0 i]
    simp
  · rw [RK2_cons, funext fun i => @iterSteps_of_fixed (rk2Step f (b - b))
      (fun x ti => by simp [rk2Step]) (b :: b :: r) x0 i]
    simp
  · rw [RK4_cons, funext fun i => @iterSteps_of_fixed (rk4Step f (b - b))
      (fun x ti => by simp [rk4Step]) (b :: b :: r) x0 i]
    simp

/-- Witness for C9 at f(y, s) = y + s, t = [5, 5, 9], x0 = 2. -/
theorem zero_step_silent_const_witness :
    (2 ≤ ([5, 5, 9] : List ℚ).length ∧
        ([5, 5, 9] : List ℚ).getD 1 0 = ([5, 5, 9] : List ℚ).getD 0 0) ∧
      (Euler (fun y s => y + s) [5, 5, 9] 2 = some (List.replicate ([5, 5, 9] : List ℚ).length 2) ∧
        RK2 (fun y s => y + s) [5, 5, 9] 2 = some (List.replicate ([5, 5, 9] : List ℚ).length 2) ∧
        RK4 (fun y s => y + s) [5, 5, 9] 2 = some (List.replicate ([5, 5, 9] : List ℚ).length 2)) :=
  ⟨⟨by decide, by decide⟩,
    zero_step_silent_const (fun y s => y + s) [5, 5, 9] 2 (by decide) (by decide)⟩

/-- C10: output entry i of each integrator depends only on x0, f and the grid
entries at indices 0 through max(i-1, 1): two grids, each of length at least
max(i+1, 2), that agree at those indices produce trajectories that agree at
every index 0 through i, for all three integrators. -/
theorem output_depends_only_on_prefix (f : ℚ → ℚ → ℚ) (x0 : ℚ) (i : Nat)
    (u v : List ℚ) (hu : max (i + 1) 2 ≤ u.length) (hv : max (i + 1) 2 ≤ v.length)
    (hagree : ∀ j, j ≤ max (i - 1) 1 → u.getD j 0 = v.getD j 0) :
    ∀ j, j ≤ i →
      (Euler f u x0).map (fun x => x.getD j 0) =
          (Euler f v x0).map (fun x => x.getD j 0) ∧
        (RK2 f u x0).map (fun x => x.getD j 0) =
          (RK2 f v x0).map (fun x => x.getD j 0) ∧
        (RK4 f u x0).map (fun x => x.getD j 0) =
          (RK4 f v x0).map (fun x => x.getD j 0) := by
  obtain ⟨a, b, ru, rfl⟩ := exists_cons_cons (le_trans (by omega) hu)
  obtain ⟨a2, b2, rv, rfl⟩ := exists_cons_cons (le_trans (by omega) hv)
  have ha : a = a2 := by simpa using hagree 0 (by omega)
  have hb : b = b2 := by simpa using hagree 1 (by omega)
  subst ha
  subst hb
  intro j hj
  have hju : j < ru.length + 2 := by
    simp only [List.length_cons] at hu
    omega
  have hjv : j < rv.length + 2 := by
    simp only [List.length_cons] at hv
    omega
  have hstep : ∀ step : ℚ → ℚ → ℚ,
      iterSteps step (a :: b :: ru) x0 j = iterSteps step (a :: b :: rv) x0 j :=
    fun step => iterSteps_congr step x0 j fun j2 hj2 => hagree j2 (by omega)
  refine ⟨?_, ?_, ?_⟩
  · rw [Euler_cons, Euler_cons, Option.map_some', Option.map_some',
      getD_range_map _ hju, getD_range_map _ hjv, hstep]
  · rw [RK2_cons, RK2_cons, Option.map_some', Option.map_some',
      getD_range_map _ hju, getD_range_map _ hjv, hstep]
  · rw [RK4_cons, RK4_cons, Option.map_some', Option.map_some',
      getD_range_map _ hju, getD_range_map _ hjv, hstep]

/-- Witness for C10 with i = 1 on the grids [0, 1, 5] and [0, 1, 9], which
agree everywhere except at their final point. -/
theorem output_depends_only_on_prefix_witness :
    (max (1 + 1) 2 ≤ ([0, 1, 5] : List ℚ).length ∧
        max (1 + 1) 2 ≤ ([0, 1, 9] : List ℚ).length ∧
        ∀ j, j ≤ max (1 - 1) 1 →
          ([0, 1, 5] : List ℚ).getD j 0 = ([0, 1, 9] : List ℚ).getD j 0) ∧
      ∀ j, j ≤ 1 →
        (Euler (fun y s => y * s) [0, 1, 5] 2).map (fun x => x.getD j 0) =
            (Euler (fun y s => y * s) [0, 1, 9] 2).map (fun x => x.getD j 0) ∧
          (RK2 (fun y s => y * s) [0, 1, 5] 2).map (fun x => x.getD j 0) =
            (RK2 (fun y s => y * s) [0, 1, 9] 2).map (fun x => x.getD j 0) ∧
          (RK4 (fun y s => y * s) [0, 1, 5] 2).map (fun x => x.getD j 0) =
            (RK4 (fun y s => y * s) [0, 1, 9] 2).map (fun x => x.getD j 0) :=
  ⟨⟨by decide, by decide, by decide⟩,
    output_depends_only_on_prefix (fun y s => y * s) 2 1 [0, 1, 5] [0, 1, 9]
      (by decide) (by decide) (by decide)⟩

end ODE
